import Mathlib

/-!
Verification of the SecOps scan pipeline from
`src/crates/zed/src/zed/quick_action_bar.rs`.

The development shallowly embeds the two components that carry the design
content of that file:

* the pure payload builder `build_secops_payload` (lines 51-75), modelled
  over UTF-8 byte lists (`List Nat`), including a faithful model of Rust's
  `String::from_utf8_lossy` restricted to the first-`SECOPS_WARN_BYTES`
  slice of a string (maximal-subpart replacement with U+FFFD, following
  `core::str::validations::run_utf8_validation` error lengths);
* the scan orchestrator `insert_secops_message` (lines 105-156), modelled
  as a function from the responses of its external collaborators (buffer
  source, agent delegate, agent panel) to a typed result paired with the
  ordered trace of collaborator interactions it performs.
-/

set_option maxRecDepth 8000

/-- UTF-8 bytes of an ASCII string literal (all string constants in the
source are ASCII, so code points and UTF-8 bytes coincide). -/
def strBytes (s : String) : List Nat := s.toList.map Char.toNat

/-- Byte content of the constant `SECOPS_SYSTEM_PROMPT` (line 35). -/
def SECOPS_SYSTEM_PROMPT : List Nat :=
  strBytes ("You are a security reviewer. Identify vulnerabilities, insecure patterns, secrets, and remediation steps. Keep responses concise and actionable.")

/-- The constant `SECOPS_WARN_BYTES = 200 * 1024` (line 36), the soft limit W. -/
def SECOPS_WARN_BYTES : Nat := 200 * 1024

/-- The constant `SECOPS_HARD_LIMIT_BYTES = 1 * 1024 * 1024` (line 37), the hard limit H. -/
def SECOPS_HARD_LIMIT_BYTES : Nat := 1 * 1024 * 1024

/-- Bytes of the truncation marker produced by the `format!` at line 61:
`[Content truncated to 204800 bytes]`. -/
def truncationNotice : List Nat :=
  strBytes ("[Content truncated to " ++ toString SECOPS_WARN_BYTES ++ " bytes]")

/-- Bytes of the blank-line separator `"\n\n"` used at lines 61 and 71. -/
def newline2 : List Nat := [10, 10]

/-- UTF-8 continuation byte test (`0x80..=0xBF`), as in
`core::str::validations`. -/
def isCont (b : Nat) : Bool := decide (0x80 ≤ b) && decide (b ≤ 0xBF)

/-- Allowed second byte of a three-byte UTF-8 sequence, following the lead
byte `b1` (the table in `core::str::validations::run_utf8_validation`). -/
def valid3Second (b1 b2 : Nat) : Bool :=
  if b1 = 0xE0 then decide (0xA0 ≤ b2) && decide (b2 ≤ 0xBF)
  else if b1 = 0xED then decide (0x80 ≤ b2) && decide (b2 ≤ 0x9F)
  else isCont b2

/-- Allowed second byte of a four-byte UTF-8 sequence, following the lead
byte `b1`. -/
def valid4Second (b1 b2 : Nat) : Bool :=
  if b1 = 0xF0 then decide (0x90 ≤ b2) && decide (b2 ≤ 0xBF)
  else if b1 = 0xF4 then decide (0x80 ≤ b2) && decide (b2 ≤ 0x8F)
  else isCont b2

/-- UTF-8 bytes of U+FFFD REPLACEMENT CHARACTER, substituted by
`String::from_utf8_lossy` for each maximal invalid subsequence. -/
def replacementChar : List Nat := [0xEF, 0xBF, 0xBD]

/-- Model of `String::from_utf8_lossy(bytes).into_owned()` as used at
lines 58-59, mapped back to UTF-8 bytes.  Each maximal invalid subsequence
(including an incomplete multi-byte sequence at the end of the input) is
replaced by one U+FFFD; the skip lengths in the invalid cases follow the
`error_len` values of `core::str::validations::run_utf8_validation`. -/
def utf8Lossy : List Nat → List Nat
  | [] => []
  | b1 :: rest =>
    if b1 < 0x80 then b1 :: utf8Lossy rest
    else if 0xC2 ≤ b1 ∧ b1 ≤ 0xDF then
      match rest with
      | [] => replacementChar
      | b2 :: rest2 =>
        if isCont b2 then b1 :: b2 :: utf8Lossy rest2
        else replacementChar ++ utf8Lossy (b2 :: rest2)
    else if 0xE0 ≤ b1 ∧ b1 ≤ 0xEF then
      match rest with
      | [] => replacementChar
      | b2 :: rest2 =>
        if valid3Second b1 b2 then
          match rest2 with
          | [] => replacementChar
          | b3 :: rest3 =>
            if isCont b3 then b1 :: b2 :: b3 :: utf8Lossy rest3
            else replacementChar ++ utf8Lossy (b3 :: rest3)
        else replacementChar ++ utf8Lossy (b2 :: rest2)
    else if 0xF0 ≤ b1 ∧ b1 ≤ 0xF4 then
      match rest with
      | [] => replacementChar
      | b2 :: rest2 =>
        if valid4Second b1 b2 then
          match rest2 with
          | [] => replacementChar
          | b3 :: rest3 =>
            if isCont b3 then
              match rest3 with
              | [] => replacementChar
              | b4 :: rest4 =>
                if isCont b4 then b1 :: b2 :: b3 :: b4 :: utf8Lossy rest4
                else replacementChar ++ utf8Lossy (b4 :: rest4)
            else replacementChar ++ utf8Lossy (b3 :: rest3)
        else replacementChar ++ utf8Lossy (b2 :: rest2)
    else replacementChar ++ utf8Lossy rest

/-- Well-formed UTF-8 byte lists: the invariant of Rust's `&str`, which is
the input type of `build_secops_payload` (line 51). -/
inductive ValidUtf8 : List Nat → Prop where
  | nil : ValidUtf8 []
  | ascii {b : Nat} {rest : List Nat} :
      b < 0x80 → ValidUtf8 rest → ValidUtf8 (b :: rest)
  | two {b1 b2 : Nat} {rest : List Nat} :
      0xC2 ≤ b1 → b1 ≤ 0xDF → isCont b2 = true → ValidUtf8 rest →
      ValidUtf8 (b1 :: b2 :: rest)
  | three {b1 b2 b3 : Nat} {rest : List Nat} :
      0xE0 ≤ b1 → b1 ≤ 0xEF → valid3Second b1 b2 = true → isCont b3 = true →
      ValidUtf8 rest → ValidUtf8 (b1 :: b2 :: b3 :: rest)
  | four {b1 b2 b3 b4 : Nat} {rest : List Nat} :
      0xF0 ≤ b1 → b1 ≤ 0xF4 → valid4Second b1 b2 = true → isCont b3 = true →
      isCont b4 = true → ValidUtf8 rest → ValidUtf8 (b1 :: b2 :: b3 :: b4 :: rest)

/-- The struct `SecOpsPayload` (lines 39-44). -/
structure SecOpsPayload where
  payload : List Nat
  truncated : Bool
  original_bytes : Nat
deriving Repr, DecidableEq

/-- The enum `SecOpsPayloadError` (lines 46-49). -/
inductive SecOpsPayloadError where
  | TooLarge (bytes : Nat)
deriving Repr, DecidableEq

/-- `build_secops_payload` (lines 51-75), over the UTF-8 bytes of the
input `&str`. -/
def build_secops_payload (contents : List Nat) :
    Except SecOpsPayloadError SecOpsPayload :=
  let byte_len := contents.length
  if byte_len > SECOPS_HARD_LIMIT_BYTES then
    Except.error (SecOpsPayloadError.TooLarge byte_len)
  else if byte_len > SECOPS_WARN_BYTES then
    let truncated_text := utf8Lossy (contents.take SECOPS_WARN_BYTES)
    Except.ok
      { payload := SECOPS_SYSTEM_PROMPT ++ newline2 ++ truncated_text ++
          newline2 ++ truncationNotice
        truncated := true
        original_bytes := byte_len }
  else
    Except.ok
      { payload := SECOPS_SYSTEM_PROMPT ++ newline2 ++ contents
        truncated := false
        original_bytes := byte_len }

/-- The content region placed between the preamble separator and the
truncation notice in the truncated branch: the `truncated_text` binding of
lines 58-59. -/
def truncatedContentPortion (contents : List Nat) : List Nat :=
  utf8Lossy (contents.take SECOPS_WARN_BYTES)

/-- The full payload text produced by the `format!` at lines 60-62. -/
def truncatedPayloadText (contents : List Nat) : List Nat :=
  SECOPS_SYSTEM_PROMPT ++ newline2 ++ truncatedContentPortion contents ++
    newline2 ++ truncationNotice

/-- The enum `SecOpsScanError` (lines 77-83). -/
inductive SecOpsScanError where
  | AgentUnavailable
  | NoAgentThread
  | UnsupportedBuffer
  | TooLarge (bytes : Nat)
deriving Repr, DecidableEq

/-- One observable interaction of `insert_secops_message` with its
collaborators, in source order:
`SnapshotText` = `buffer.read(cx).snapshot(cx)`/`.text()` (lines 116-117),
`BuildPayload` = the call to `build_secops_payload` (line 118),
`QueryCapability` = `<dyn AgentPanelDelegate>::try_global` (line 122),
`FocusPanel` = `workspace.focus_panel::<AgentPanel>` (lines 127 and 154),
`QueryActiveThread` = `active_text_thread_editor` (lines 131 and 139),
`CreateThread` = `panel.new_text_thread` (line 135),
`MoveToEnd`, `InsertSeparator`, `InsertPayloadText` = lines 146-150. -/
inductive ScanEvent where
  | SnapshotText
  | BuildPayload
  | QueryCapability
  | FocusPanel
  | QueryActiveThread
  | CreateThread
  | MoveToEnd
  | InsertSeparator
  | InsertPayloadText
deriving Repr, DecidableEq

/-- Responses of the external collaborators of `insert_secops_message`
during one scan: `is_singleton` is `buffer.read(cx).is_singleton()`
(line 112); `buffer_text` the UTF-8 bytes of `buffer_snapshot.text()`
(line 117); `delegate_available` whether `try_global` returns `Some`
(line 122); `panel_present` whether `workspace.panel::<AgentPanel>`
returns `Some` (lines 126 and 134); `active_thread_before` and
`active_thread_after` whether `active_text_thread_editor` returns `Some`
at its two call sites (lines 131 and 139); `message_buffer_empty` whether
the destination composer snapshot is empty (line 147). -/
structure ScanEnv where
  is_singleton : Bool
  buffer_text : List Nat
  delegate_available : Bool
  panel_present : Bool
  active_thread_before : Bool
  active_thread_after : Bool
  message_buffer_empty : Bool
deriving Repr, DecidableEq

/-- `insert_secops_message` (lines 105-156): the typed result paired with
the ordered trace of collaborator interactions.  The control flow mirrors
the source: the singleton check returns before any other interaction; a
`TooLarge` error returns after the snapshot and builder call; the delegate
check precedes the early `focus_panel` of lines 126-128, which runs only
when the panel exists and runs before thread acquisition; the creation
attempt of lines 134-136 runs only when no thread was active and the panel
exists; the re-query at line 139 always runs; insertion and the final
`focus_panel` of line 154 run only on the success path. -/
def insert_secops_message (env : ScanEnv) :
    Except SecOpsScanError SecOpsPayload × List ScanEvent :=
  if env.is_singleton = false then
    (Except.error SecOpsScanError.UnsupportedBuffer, [])
  else
    match build_secops_payload env.buffer_text with
    | Except.error (SecOpsPayloadError.TooLarge bytes) =>
        (Except.error (SecOpsScanError.TooLarge bytes),
          [ScanEvent.SnapshotText, ScanEvent.BuildPayload])
    | Except.ok payload =>
      if env.delegate_available = false then
        (Except.error SecOpsScanError.AgentUnavailable,
          [ScanEvent.SnapshotText, ScanEvent.BuildPayload,
            ScanEvent.QueryCapability])
      else if env.active_thread_after = false then
        (Except.error SecOpsScanError.NoAgentThread,
          [ScanEvent.SnapshotText, ScanEvent.BuildPayload,
            ScanEvent.QueryCapability] ++
          (if env.panel_present then [ScanEvent.FocusPanel] else []) ++
          [ScanEvent.QueryActiveThread] ++
          (if env.active_thread_before = false ∧ env.panel_present then
            [ScanEvent.CreateThread] else []) ++
          [ScanEvent.QueryActiveThread])
      else
        (Except.ok payload,
          [ScanEvent.SnapshotText, ScanEvent.BuildPayload,
            ScanEvent.QueryCapability] ++
          (if env.panel_present then [ScanEvent.FocusPanel] else []) ++
          [ScanEvent.QueryActiveThread] ++
          (if env.active_thread_before = false ∧ env.panel_present then
            [ScanEvent.CreateThread] else []) ++
          [ScanEvent.QueryActiveThread, ScanEvent.MoveToEnd] ++
          (if env.message_buffer_empty then [] else [ScanEvent.InsertSeparator]) ++
          [ScanEvent.InsertPayloadText, ScanEvent.FocusPanel])

/-- `pat` occurs in `l` starting at index `i`. -/
def occursAt (pat l : List Nat) (i : Nat) : Prop :=
  (l.drop i).take pat.length = pat

instance occursAtDecidable (pat l : List Nat) (i : Nat) :
    Decidable (occursAt pat l i) :=
  inferInstanceAs (Decidable ((l.drop i).take pat.length = pat))

instance exceptDecEq {ε α : Type} [DecidableEq ε] [DecidableEq α] :
    DecidableEq (Except ε α) := fun x y =>
  match x, y with
  | Except.error a, Except.error b =>
      if h : a = b then Decidable.isTrue (congrArg Except.error h)
      else Decidable.isFalse (fun hc => h (Except.error.inj hc))
  | Except.error _, Except.ok _ =>
      Decidable.isFalse (fun hc => Except.noConfusion hc)
  | Except.ok _, Except.error _ =>
      Decidable.isFalse (fun hc => Except.noConfusion hc)
  | Except.ok a, Except.ok b =>
      if h : a = b then Decidable.isTrue (congrArg Except.ok h)
      else Decidable.isFalse (fun hc => h (Except.ok.inj hc))

theorem utf8Lossy_nil : utf8Lossy [] = [] := rfl

theorem utf8Lossy_ascii_cons {b : Nat} (l : List Nat) (h : b < 0x80) :
    utf8Lossy (b :: l) = b :: utf8Lossy l := by
  rw [utf8Lossy.eq_def]
  simp [h]

theorem utf8Lossy_two_cons {b1 b2 : Nat} (l : List Nat)
    (h1 : 0xC2 ≤ b1) (h2 : b1 ≤ 0xDF) (hc : isCont b2 = true) :
    utf8Lossy (b1 :: b2 :: l) = b1 :: b2 :: utf8Lossy l := by
  have hna : ¬ b1 < 0x80 := by omega
  rw [utf8Lossy.eq_def]
  simp [hna, h1, h2, hc]

theorem utf8Lossy_two_end {b1 : Nat} (h1 : 0xC2 ≤ b1) (h2 : b1 ≤ 0xDF) :
    utf8Lossy [b1] = replacementChar := by
  have hna : ¬ b1 < 0x80 := by omega
  simp [utf8Lossy, hna, h1, h2]

theorem utf8Lossy_three_cons {b1 b2 b3 : Nat} (l : List Nat)
    (h1 : 0xE0 ≤ b1) (h2 : b1 ≤ 0xEF) (hv : valid3Second b1 b2 = true)
    (hc : isCont b3 = true) :
    utf8Lossy (b1 :: b2 :: b3 :: l) = b1 :: b2 :: b3 :: utf8Lossy l := by
  have hna : ¬ b1 < 0x80 := by omega
  have hn2 : ¬ (0xC2 ≤ b1 ∧ b1 ≤ 0xDF) := by omega
  rw [utf8Lossy.eq_def]
  simp [hna, hn2, h1, h2, hv, hc]

theorem utf8Lossy_three_end1 {b1 : Nat} (h1 : 0xE0 ≤ b1) (h2 : b1 ≤ 0xEF) :
    utf8Lossy [b1] = replacementChar := by
  have hna : ¬ b1 < 0x80 := by omega
  have hn2 : ¬ (0xC2 ≤ b1 ∧ b1 ≤ 0xDF) := by omega
  simp [utf8Lossy, hna, hn2, h1, h2]

theorem utf8Lossy_three_end2 {b1 b2 : Nat} (h1 : 0xE0 ≤ b1) (h2 : b1 ≤ 0xEF)
    (hv : valid3Second b1 b2 = true) :
    utf8Lossy [b1, b2] = replacementChar := by
  have hna : ¬ b1 < 0x80 := by omega
  have hn2 : ¬ (0xC2 ≤ b1 ∧ b1 ≤ 0xDF) := by omega
  simp [utf8Lossy, hna, hn2, h1, h2, hv]

theorem utf8Lossy_four_cons {b1 b2 b3 b4 : Nat} (l : List Nat)
    (h1 : 0xF0 ≤ b1) (h2 : b1 ≤ 0xF4) (hv : valid4Second b1 b2 = true)
    (hc3 : isCont b3 = true) (hc4 : isCont b4 = true) :
    utf8Lossy (b1 :: b2 :: b3 :: b4 :: l) = b1 :: b2 :: b3 :: b4 :: utf8Lossy l := by
  have hna : ¬ b1 < 0x80 := by omega
  have hn2 : ¬ (0xC2 ≤ b1 ∧ b1 ≤ 0xDF) := by omega
  have hn3 : ¬ (0xE0 ≤ b1 ∧ b1 ≤ 0xEF) := by omega
  simp [utf8Lossy, hna, hn2, hn3, h1, h2, hv, hc3, hc4]

theorem utf8Lossy_four_end1 {b1 : Nat} (h1 : 0xF0 ≤ b1) (h2 : b1 ≤ 0xF4) :
    utf8Lossy [b1] = replacementChar := by
  have hna : ¬ b1 < 0x80 := by omega
  have hn2 : ¬ (0xC2 ≤ b1 ∧ b1 ≤ 0xDF) := by omega
  have hn3 : ¬ (0xE0 ≤ b1 ∧ b1 ≤ 0xEF) := by omega
  simp [utf8Lossy, hna, hn2, hn3, h1, h2]

theorem utf8Lossy_four_end2 {b1 b2 : Nat} (h1 : 0xF0 ≤ b1) (h2 : b1 ≤ 0xF4)
    (hv : valid4Second b1 b2 = true) :
    utf8Lossy [b1, b2] = replacementChar := by
  have hna : ¬ b1 < 0x80 := by omega
  have hn2 : ¬ (0xC2 ≤ b1 ∧ b1 ≤ 0xDF) := by omega
  have hn3 : ¬ (0xE0 ≤ b1 ∧ b1 ≤ 0xEF) := by omega
  simp [utf8Lossy, hna, hn2, hn3, h1, h2, hv]

theorem utf8Lossy_four_end3 {b1 b2 b3 : Nat} (h1 : 0xF0 ≤ b1) (h2 : b1 ≤ 0xF4)
    (hv : valid4Second b1 b2 = true) (hc3 : isCont b3 = true) :
    utf8Lossy [b1, b2, b3] = replacementChar := by
  have hna : ¬ b1 < 0x80 := by omega
  have hn2 : ¬ (0xC2 ≤ b1 ∧ b1 ≤ 0xDF) := by omega
  have hn3 : ¬ (0xE0 ≤ b1 ∧ b1 ≤ 0xEF) := by omega
  simp [utf8Lossy, hna, hn2, hn3, h1, h2, hv, hc3]

theorem utf8Lossy_of_valid {l : List Nat} (h : ValidUtf8 l) :
    utf8Lossy l = l := by
  induction h with
  | nil => rfl
  | ascii hb _ ih => rw [utf8Lossy_ascii_cons _ hb, ih]
  | two h1 h2 hc _ ih => rw [utf8Lossy_two_cons _ h1 h2 hc, ih]
  | three h1 h2 hv hc _ ih => rw [utf8Lossy_three_cons _ h1 h2 hv hc, ih]
  | four h1 h2 hv hc3 hc4 _ ih => rw [utf8Lossy_four_cons _ h1 h2 hv hc3 hc4, ih]

theorem replacementChar_length : replacementChar.length = 3 := rfl

/-- Taking any byte-length prefix of well-formed UTF-8 and decoding it
lossily yields at most two bytes more than the prefix length: at most one
incomplete multi-byte character is cut at the boundary, and its remaining
prefix (1 to 3 bytes) is replaced by the 3-byte U+FFFD. -/
theorem utf8Lossy_take_le {l : List Nat} (h : ValidUtf8 l) :
    ∀ m : Nat, (utf8Lossy (l.take m)).length ≤ m + 2 := by
  induction h with
  | nil => intro m; simp [utf8Lossy]
  | ascii hb _ ih =>
    intro m
    cases m with
    | zero => simp [utf8Lossy]
    | succ m1 =>
      rw [List.take_succ_cons, utf8Lossy_ascii_cons _ hb]
      have := ih m1
      simp only [List.length_cons]
      omega
  | two h1 h2 hc _ ih =>
    intro m
    match m with
    | 0 => simp [utf8Lossy]
    | 1 =>
      rw [List.take_succ_cons, List.take_zero, utf8Lossy_two_end h1 h2,
        replacementChar_length]
    | (m2 + 2) =>
      rw [List.take_succ_cons, List.take_succ_cons,
        utf8Lossy_two_cons _ h1 h2 hc]
      have := ih m2
      simp only [List.length_cons]
      omega
  | three h1 h2 hv hc _ ih =>
    intro m
    match m with
    | 0 => simp [utf8Lossy]
    | 1 =>
      rw [List.take_succ_cons, List.take_zero, utf8Lossy_three_end1 h1 h2,
        replacementChar_length]
    | 2 =>
      rw [List.take_succ_cons, List.take_succ_cons, List.take_zero,
        utf8Lossy_three_end2 h1 h2 hv, replacementChar_length]
      omega
    | (m3 + 3) =>
      rw [List.take_succ_cons, List.take_succ_cons, List.take_succ_cons,
        utf8Lossy_three_cons _ h1 h2 hv hc]
      have := ih m3
      simp only [List.length_cons]
      omega
  | four h1 h2 hv hc3 hc4 _ ih =>
    intro m
    match m with
    | 0 => simp [utf8Lossy]
    | 1 =>
      rw [List.take_succ_cons, List.take_zero, utf8Lossy_four_end1 h1 h2,
        replacementChar_length]
    | 2 =>
      rw [List.take_succ_cons, List.take_succ_cons, List.take_zero,
        utf8Lossy_four_end2 h1 h2 hv, replacementChar_length]
      omega
    | 3 =>
      rw [List.take_succ_cons, List.take_succ_cons, List.take_succ_cons,
        List.take_zero, utf8Lossy_four_end3 h1 h2 hv hc3,
        replacementChar_length]
      omega
    | (m4 + 4) =>
      rw [List.take_succ_cons, List.take_succ_cons, List.take_succ_cons,
        List.take_succ_cons, utf8Lossy_four_cons _ h1 h2 hv hc3 hc4]
      have := ih m4
      simp only [List.length_cons]
      omega

theorem utf8Lossy_ascii_append {l : List Nat} (h : ∀ b ∈ l, b < 0x80)
    (t : List Nat) : utf8Lossy (l ++ t) = l ++ utf8Lossy t := by
  induction l with
  | nil => simp
  | cons b l ih =>
    rw [List.cons_append, utf8Lossy_ascii_cons _ (h b (by simp)),
      ih (fun x hx => h x (by simp [hx])), List.cons_append]

theorem validUtf8_of_ascii {l : List Nat} (h : ∀ b ∈ l, b < 0x80) :
    ValidUtf8 l := by
  induction l with
  | nil => exact ValidUtf8.nil
  | cons b l ih =>
    exact ValidUtf8.ascii (h b (by simp)) (ih fun x hx => h x (by simp [hx]))

theorem validUtf8_replicate_ascii (n : Nat) :
    ValidUtf8 (List.replicate n 97) := by
  refine validUtf8_of_ascii fun b hb => ?_
  rw [List.eq_of_mem_replicate hb]
  omega

theorem ValidUtf8.append {l1 l2 : List Nat} (h1 : ValidUtf8 l1)
    (h2 : ValidUtf8 l2) : ValidUtf8 (l1 ++ l2) := by
  induction h1 with
  | nil => simpa
  | ascii hb _ ih => exact ValidUtf8.ascii hb ih
  | two a b c _ ih => exact ValidUtf8.two a b c ih
  | three a b c d _ ih => exact ValidUtf8.three a b c d ih
  | four a b c d e _ ih => exact ValidUtf8.four a b c d e ih

/-- Lines 70-74: the untruncated branch of `build_secops_payload`. -/
theorem build_small_eq {t : List Nat} (h : t.length ≤ SECOPS_WARN_BYTES) :
    build_secops_payload t = Except.ok
      { payload := SECOPS_SYSTEM_PROMPT ++ newline2 ++ t
        truncated := false
        original_bytes := t.length } := by
  have hW : ¬ t.length > SECOPS_WARN_BYTES := by omega
  have hH : ¬ t.length > SECOPS_HARD_LIMIT_BYTES := by
    simp only [SECOPS_WARN_BYTES] at h
    simp only [SECOPS_HARD_LIMIT_BYTES]
    omega
  simp [build_secops_payload, hW, hH]

/-- Lines 57-68: the truncated branch of `build_secops_payload`. -/
theorem build_truncated_eq {t : List Nat} (h1 : SECOPS_WARN_BYTES < t.length)
    (h2 : t.length ≤ SECOPS_HARD_LIMIT_BYTES) :
    build_secops_payload t = Except.ok
      { payload := truncatedPayloadText t
        truncated := true
        original_bytes := t.length } := by
  have hH : ¬ t.length > SECOPS_HARD_LIMIT_BYTES := by omega
  simp [build_secops_payload, hH, h1, truncatedPayloadText,
    truncatedContentPortion]

/-- Lines 52-55: the hard-rejection branch of `build_secops_payload`. -/
theorem build_too_large_eq {t : List Nat}
    (h : SECOPS_HARD_LIMIT_BYTES < t.length) :
    build_secops_payload t =
      Except.error (SecOpsPayloadError.TooLarge t.length) := by
  simp [build_secops_payload, h]

theorem build_isOk_of_le {t : List Nat}
    (h : t.length ≤ SECOPS_HARD_LIMIT_BYTES) :
    ∃ p, build_secops_payload t = Except.ok p := by
  rcases Nat.lt_or_ge SECOPS_WARN_BYTES t.length with hw | hw
  · exact ⟨_, build_truncated_eq hw h⟩
  · exact ⟨_, build_small_eq hw⟩

theorem build_no_error_of_le {t : List Nat}
    (h : t.length ≤ SECOPS_HARD_LIMIT_BYTES) :
    ∀ e, build_secops_payload t ≠ Except.error e := by
  obtain ⟨p, hp⟩ := build_isOk_of_le h
  intro e he
  rw [hp] at he
  exact absurd he (by simp)

theorem build_ok_length {t : List Nat} {p : SecOpsPayload}
    (h : build_secops_payload t = Except.ok p) :
    t.length ≤ SECOPS_HARD_LIMIT_BYTES := by
  by_contra hc
  have hgt : SECOPS_HARD_LIMIT_BYTES < t.length := by omega
  rw [build_too_large_eq hgt] at h
  exact absurd h (by simp)

theorem truncatedPayloadText_length_le {t : List Nat} (hv : ValidUtf8 t) :
    (truncatedPayloadText t).length ≤
      SECOPS_WARN_BYTES + SECOPS_SYSTEM_PROMPT.length +
        truncationNotice.length + 6 := by
  have hb := utf8Lossy_take_le hv SECOPS_WARN_BYTES
  simp only [truncatedPayloadText, truncatedContentPortion, newline2,
    List.length_append, List.length_cons, List.length_nil]
  omega

/-- The truncated payload ends with the truncation notice. -/
theorem truncatedPayloadText_notice_suffix (t : List Nat) :
    occursAt truncationNotice (truncatedPayloadText t)
      ((truncatedPayloadText t).length - truncationNotice.length) := by
  have hp : truncatedPayloadText t =
      (SECOPS_SYSTEM_PROMPT ++ newline2 ++ truncatedContentPortion t ++
        newline2) ++ truncationNotice := by
    simp [truncatedPayloadText, List.append_assoc]
  rw [occursAt, hp]
  have hlen : ((SECOPS_SYSTEM_PROMPT ++ newline2 ++ truncatedContentPortion t ++
      newline2) ++ truncationNotice).length - truncationNotice.length =
      (SECOPS_SYSTEM_PROMPT ++ newline2 ++ truncatedContentPortion t ++
        newline2).length := by
    simp only [List.length_append]
    omega
  rw [hlen, List.drop_left, List.take_length]

/-- Claim C1: for every input whose byte length is at most the soft limit
`SECOPS_WARN_BYTES`, `build_secops_payload` succeeds with
`truncated = false`, `original_bytes` equal to that length, and a payload
that is the system preamble, the blank-line separator, then the content
verbatim. -/
theorem secops_small_payload_verbatim (t : List Nat)
    (h : t.length ≤ SECOPS_WARN_BYTES) :
    build_secops_payload t = Except.ok
      { payload := SECOPS_SYSTEM_PROMPT ++ newline2 ++ t
        truncated := false
        original_bytes := t.length } :=
  build_small_eq h

/-- Witness for C1 at the repository test input `"safe content"`. -/
theorem secops_small_payload_verbatim_witness :
    (strBytes ("safe content")).length ≤ SECOPS_WARN_BYTES ∧
    build_secops_payload (strBytes ("safe content")) = Except.ok
      { payload := SECOPS_SYSTEM_PROMPT ++ newline2 ++ strBytes ("safe content")
        truncated := false
        original_bytes := (strBytes ("safe content")).length } :=
  ⟨by decide, secops_small_payload_verbatim _ (by decide)⟩

/-- Claim C4: inputs longer than the hard limit fail with `TooLarge`
carrying the exact byte count and produce no payload; inputs at or below
the hard limit never produce a `TooLarge` error (or any error). -/
theorem secops_hard_limit_rejection (t : List Nat) :
    (SECOPS_HARD_LIMIT_BYTES < t.length →
      build_secops_payload t =
        Except.error (SecOpsPayloadError.TooLarge t.length)) ∧
    (t.length ≤ SECOPS_HARD_LIMIT_BYTES →
      ∀ e, build_secops_payload t ≠ Except.error e) :=
  ⟨fun h => build_too_large_eq h, fun h => build_no_error_of_le h⟩

/-- Witness for C4: a content of `SECOPS_HARD_LIMIT_BYTES + 1` bytes is
rejected, and the empty content produces no error. -/
theorem secops_hard_limit_rejection_witness :
    build_secops_payload (List.replicate (SECOPS_HARD_LIMIT_BYTES + 1) 97) =
      Except.error (SecOpsPayloadError.TooLarge
        (List.replicate (SECOPS_HARD_LIMIT_BYTES + 1) 97).length) ∧
    (∀ e, build_secops_payload [] ≠ Except.error e) :=
  ⟨(secops_hard_limit_rejection _).1 (by simp only [List.length_replicate]; omega),
   (secops_hard_limit_rejection []).2 (by simp)⟩

/-- Claim C8: `build_secops_payload` is deterministic.  The embedding is a
pure function of the content bytes alone — the source reads no other
state, so byte-identical inputs yield byte-identical results. -/
theorem secops_payload_deterministic (t1 t2 : List Nat) (h : t1 = t2) :
    build_secops_payload t1 = build_secops_payload t2 := by
  rw [h]

/-- Witness for C8 at the repository test input. -/
theorem secops_payload_deterministic_witness :
    build_secops_payload (strBytes ("safe content")) =
      build_secops_payload (strBytes ("safe content")) :=
  secops_payload_deterministic _ _ rfl

/-- Claim C9: `build_secops_payload` is total, and the byte-slice of the
first `SECOPS_WARN_BYTES` bytes is taken only under the branch condition
`byte_len > SECOPS_WARN_BYTES`, under which the slice index is in bounds
and the slice has exactly `SECOPS_WARN_BYTES` bytes. -/
theorem secops_build_total_slice_in_bounds (t : List Nat) :
    (∃ r, build_secops_payload t = r) ∧
    (SECOPS_WARN_BYTES < t.length →
      SECOPS_WARN_BYTES ≤ t.length ∧
      (t.take SECOPS_WARN_BYTES).length = SECOPS_WARN_BYTES) :=
  ⟨⟨_, rfl⟩, fun h => ⟨Nat.le_of_lt h, by simp only [List.length_take]; omega⟩⟩

/-- Witness for C9 at a content one byte over the soft limit. -/
theorem secops_build_total_slice_in_bounds_witness :
    SECOPS_WARN_BYTES < (List.replicate (SECOPS_WARN_BYTES + 1) 97).length ∧
    SECOPS_WARN_BYTES ≤ (List.replicate (SECOPS_WARN_BYTES + 1) 97).length ∧
    ((List.replicate (SECOPS_WARN_BYTES + 1) 97).take
      SECOPS_WARN_BYTES).length = SECOPS_WARN_BYTES :=
  ⟨by simp only [List.length_replicate]; omega,
   (secops_build_total_slice_in_bounds _).2
     (by simp only [List.length_replicate]; omega)⟩

/-- Claim C10: on the empty string the builder succeeds with
`truncated = false`, `original_bytes = 0`, and a payload that is exactly
the preamble followed by the blank-line separator — which differs from the
bare preamble. -/
theorem secops_empty_payload :
    build_secops_payload [] = Except.ok
      { payload := SECOPS_SYSTEM_PROMPT ++ newline2
        truncated := false
        original_bytes := 0 } ∧
    SECOPS_SYSTEM_PROMPT ++ newline2 ≠ SECOPS_SYSTEM_PROMPT := by
  constructor
  · simpa using build_small_eq (t := []) (by simp)
  · intro hcon
    have hlen := congrArg List.length hcon
    simp [newline2] at hlen

/-- Claim C2 (amended): for `SECOPS_WARN_BYTES < n ≤ SECOPS_HARD_LIMIT_BYTES`
the builder succeeds with `truncated = true`, `original_bytes = n`, a
payload bounded by `W + preamble_len + marker_len + 6` bytes, and the
payload ends with the truncation marker (hence contains it at least once).
The marker need not occur exactly once: the content region may itself
contain the marker text (see the counterexample). -/
theorem secops_truncated_payload_bounded (t : List Nat) (hv : ValidUtf8 t)
    (h1 : SECOPS_WARN_BYTES < t.length)
    (h2 : t.length ≤ SECOPS_HARD_LIMIT_BYTES) :
    build_secops_payload t = Except.ok
      { payload := truncatedPayloadText t
        truncated := true
        original_bytes := t.length } ∧
    (truncatedPayloadText t).length ≤ SECOPS_WARN_BYTES +
      SECOPS_SYSTEM_PROMPT.length + truncationNotice.length + 6 ∧
    occursAt truncationNotice (truncatedPayloadText t)
      ((truncatedPayloadText t).length - truncationNotice.length) :=
  ⟨build_truncated_eq h1 h2, truncatedPayloadText_length_le hv,
   truncatedPayloadText_notice_suffix t⟩

/-- Witness for C2 at the repository test input: `SECOPS_WARN_BYTES + 10`
repetitions of the byte `97` (`'a'`). -/
theorem secops_truncated_payload_bounded_witness :
    build_secops_payload (List.replicate (SECOPS_WARN_BYTES + 10) 97) =
      Except.ok
        { payload := truncatedPayloadText
            (List.replicate (SECOPS_WARN_BYTES + 10) 97)
          truncated := true
          original_bytes :=
            (List.replicate (SECOPS_WARN_BYTES + 10) 97).length } :=
  (secops_truncated_payload_bounded _ (validUtf8_replicate_ascii _)
    (by simp only [List.length_replicate]; decide)
    (by simp only [List.length_replicate]; decide)).1

/-- An input whose content starts with the truncation marker text itself,
padded with `SECOPS_WARN_BYTES` bytes of `'a'` so that it is truncated. -/
def contentWithMarker : List Nat :=
  truncationNotice ++ List.replicate SECOPS_WARN_BYTES 97

/-- Counterexample to C2 as stated: for `contentWithMarker` the built
payload contains the truncation marker at two distinct positions — at the
start of the content region and in the appended truncation notice — so it
does not contain the marker exactly once. -/
theorem secops_truncation_marker_not_unique :
    SECOPS_WARN_BYTES < contentWithMarker.length ∧
    contentWithMarker.length ≤ SECOPS_HARD_LIMIT_BYTES ∧
    build_secops_payload contentWithMarker = Except.ok
      { payload := truncatedPayloadText contentWithMarker
        truncated := true
        original_bytes := contentWithMarker.length } ∧
    occursAt truncationNotice (truncatedPayloadText contentWithMarker)
      (SECOPS_SYSTEM_PROMPT.length + 2) ∧
    occursAt truncationNotice (truncatedPayloadText contentWithMarker)
      (SECOPS_SYSTEM_PROMPT.length + 2 + SECOPS_WARN_BYTES + 2) ∧
    ¬ (∃! i, occursAt truncationNotice
        (truncatedPayloadText contentWithMarker) i) := by
  have hW : SECOPS_WARN_BYTES = 204800 := rfl
  have hnl : truncationNotice.length = 35 := rfl
  have hlen : contentWithMarker.length = 35 + SECOPS_WARN_BYTES := by
    simp [contentWithMarker, hnl]
  have h1 : SECOPS_WARN_BYTES < contentWithMarker.length := by omega
  have h2 : contentWithMarker.length ≤ SECOPS_HARD_LIMIT_BYTES := by
    have hH : SECOPS_HARD_LIMIT_BYTES = 1048576 := rfl
    omega
  have htake : contentWithMarker.take SECOPS_WARN_BYTES =
      truncationNotice ++ List.replicate (SECOPS_WARN_BYTES - 35) 97 := by
    rw [contentWithMarker, List.take_append_eq_append_take,
      List.take_of_length_le (by omega), List.take_replicate, hnl]
    have hmin : min (SECOPS_WARN_BYTES - 35) SECOPS_WARN_BYTES =
        SECOPS_WARN_BYTES - 35 := by omega
    rw [hmin]
  have hcontent : truncatedContentPortion contentWithMarker =
      truncationNotice ++ List.replicate (SECOPS_WARN_BYTES - 35) 97 := by
    rw [truncatedContentPortion, htake]
    have hascii : ∀ b ∈ truncationNotice, b < 0x80 := by decide
    refine utf8Lossy_of_valid (validUtf8_of_ascii fun b hb => ?_)
    rcases List.mem_append.1 hb with hb2 | hb2
    · exact hascii b hb2
    · rw [List.eq_of_mem_replicate hb2]
      omega
  have hcplen : (truncatedContentPortion contentWithMarker).length =
      SECOPS_WARN_BYTES := by
    rw [hcontent]
    simp [hnl]
    omega
  have occ1 : occursAt truncationNotice (truncatedPayloadText contentWithMarker)
      (SECOPS_SYSTEM_PROMPT.length + 2) := by
    have hassoc : truncatedPayloadText contentWithMarker =
        (SECOPS_SYSTEM_PROMPT ++ newline2) ++
          (truncatedContentPortion contentWithMarker ++ newline2 ++
            truncationNotice) := by
      simp [truncatedPayloadText, List.append_assoc]
    rw [occursAt, hassoc, List.drop_left' (by simp [newline2])]
    have hshape : truncatedContentPortion contentWithMarker ++ newline2 ++
        truncationNotice = truncationNotice ++
          (List.replicate (SECOPS_WARN_BYTES - 35) 97 ++ newline2 ++
            truncationNotice) := by
      rw [hcontent]
      simp [List.append_assoc]
    rw [hshape, List.take_left' rfl]
  have hn2 : newline2.length = 2 := rfl
  have hL : (truncatedPayloadText contentWithMarker).length =
      SECOPS_SYSTEM_PROMPT.length + newline2.length +
        (truncatedContentPortion contentWithMarker).length + newline2.length +
        truncationNotice.length := by
    simp only [truncatedPayloadText, List.length_append]
  have occ2 : occursAt truncationNotice (truncatedPayloadText contentWithMarker)
      (SECOPS_SYSTEM_PROMPT.length + 2 + SECOPS_WARN_BYTES + 2) := by
    have hidx : (truncatedPayloadText contentWithMarker).length -
        truncationNotice.length =
        SECOPS_SYSTEM_PROMPT.length + 2 + SECOPS_WARN_BYTES + 2 := by
      omega
    have := truncatedPayloadText_notice_suffix contentWithMarker
    rwa [hidx] at this
  refine ⟨h1, h2, build_truncated_eq h1 h2, occ1, occ2, ?_⟩
  rintro ⟨i, -, huniq⟩
  have e1 := huniq _ occ1
  have e2 := huniq _ occ2
  omega

/-- Claim C3 (amended): for `SECOPS_WARN_BYTES < n ≤ SECOPS_HARD_LIMIT_BYTES`
the content portion of the built payload is bounded by
`SECOPS_WARN_BYTES + 2` bytes — not by `SECOPS_WARN_BYTES`: when a
multi-byte character straddles the soft-limit boundary, its cut prefix is
replaced by the 3-byte U+FFFD, which can exceed the soft limit by up to
two bytes (see the counterexample). -/
theorem secops_truncated_content_bounded (t : List Nat) (hv : ValidUtf8 t)
    (h1 : SECOPS_WARN_BYTES < t.length)
    (h2 : t.length ≤ SECOPS_HARD_LIMIT_BYTES) :
    build_secops_payload t = Except.ok
      { payload := truncatedPayloadText t
        truncated := true
        original_bytes := t.length } ∧
    (truncatedContentPortion t).length ≤ SECOPS_WARN_BYTES + 2 := by
  refine ⟨build_truncated_eq h1 h2, ?_⟩
  simpa [truncatedContentPortion] using utf8Lossy_take_le hv SECOPS_WARN_BYTES

/-- Witness for C3 at `SECOPS_WARN_BYTES + 10` repetitions of `'a'`. -/
theorem secops_truncated_content_bounded_witness :
    (truncatedContentPortion
      (List.replicate (SECOPS_WARN_BYTES + 10) 97)).length ≤
      SECOPS_WARN_BYTES + 2 :=
  (secops_truncated_content_bounded _ (validUtf8_replicate_ascii _)
    (by simp only [List.length_replicate]; decide)
    (by simp only [List.length_replicate]; decide)).2

/-- A valid UTF-8 input of `SECOPS_WARN_BYTES + 2` bytes whose final
character (the three-byte U+20AC) straddles the soft-limit boundary. -/
def contentSplitChar : List Nat :=
  List.replicate (SECOPS_WARN_BYTES - 1) 97 ++ [0xE2, 0x82, 0xAC]

/-- Counterexample to C3 as stated: for `contentSplitChar` the content
portion of the built payload has exactly `SECOPS_WARN_BYTES + 2` bytes,
exceeding the soft limit: the one lead byte cut at the boundary is
replaced by the 3-byte U+FFFD. -/
theorem secops_truncated_content_exceeds_soft_limit :
    ValidUtf8 contentSplitChar ∧
    SECOPS_WARN_BYTES < contentSplitChar.length ∧
    contentSplitChar.length ≤ SECOPS_HARD_LIMIT_BYTES ∧
    build_secops_payload contentSplitChar = Except.ok
      { payload := truncatedPayloadText contentSplitChar
        truncated := true
        original_bytes := contentSplitChar.length } ∧
    (truncatedContentPortion contentSplitChar).length =
      SECOPS_WARN_BYTES + 2 := by
  have hW : SECOPS_WARN_BYTES = 204800 := rfl
  have hH : SECOPS_HARD_LIMIT_BYTES = 1048576 := rfl
  have hvalid : ValidUtf8 contentSplitChar := by
    refine ValidUtf8.append (validUtf8_replicate_ascii _) ?_
    exact ValidUtf8.three (by decide) (by decide) (by decide) (by decide)
      ValidUtf8.nil
  have h3 : ([0xE2, 0x82, 0xAC] : List Nat).length = 3 := rfl
  have hlen : contentSplitChar.length = SECOPS_WARN_BYTES + 2 := by
    rw [contentSplitChar, List.length_append, List.length_replicate, h3]
    omega
  have h1 : SECOPS_WARN_BYTES < contentSplitChar.length := by omega
  have h2 : contentSplitChar.length ≤ SECOPS_HARD_LIMIT_BYTES := by omega
  have htake : contentSplitChar.take SECOPS_WARN_BYTES =
      List.replicate (SECOPS_WARN_BYTES - 1) 97 ++ [0xE2] := by
    rw [contentSplitChar, List.take_append_eq_append_take,
      List.take_replicate, List.length_replicate]
    have hmin : min SECOPS_WARN_BYTES (SECOPS_WARN_BYTES - 1) =
        SECOPS_WARN_BYTES - 1 := by omega
    have hone : SECOPS_WARN_BYTES - (SECOPS_WARN_BYTES - 1) = 1 := by omega
    rw [hmin, hone]
    congr 1
  have hcontent : truncatedContentPortion contentSplitChar =
      List.replicate (SECOPS_WARN_BYTES - 1) 97 ++ replacementChar := by
    rw [truncatedContentPortion, htake,
      utf8Lossy_ascii_append
        (fun b hb => by rw [List.eq_of_mem_replicate hb]; omega),
      utf8Lossy_three_end1 (by decide) (by decide)]
  have hrl : replacementChar.length = 3 := rfl
  have hcplen : (truncatedContentPortion contentSplitChar).length =
      SECOPS_WARN_BYTES + 2 := by
    rw [hcontent, List.length_append, List.length_replicate, hrl]
    omega
  exact ⟨hvalid, h1, h2, build_truncated_eq h1 h2, hcplen⟩

theorem scan_buildPayload_mem {env : ScanEnv}
    (h : ScanEvent.BuildPayload ∈ (insert_secops_message env).2) :
    env.is_singleton = true := by
  by_cases hs : env.is_singleton = false
  · simp [insert_secops_message, hs] at h
  · cases hsv : env.is_singleton
    · exact absurd hsv hs
    · rfl

theorem scan_queryCapability_mem {env : ScanEnv}
    (h : ScanEvent.QueryCapability ∈ (insert_secops_message env).2) :
    env.is_singleton = true ∧
      env.buffer_text.length ≤ SECOPS_HARD_LIMIT_BYTES := by
  by_cases hs : env.is_singleton = false
  · simp [insert_secops_message, hs] at h
  · have hs' : env.is_singleton = true := by
      cases hsv : env.is_singleton
      · exact absurd hsv hs
      · rfl
    refine ⟨hs', ?_⟩
    cases hb : build_secops_payload env.buffer_text with
    | error err =>
      cases err with
      | TooLarge bytes => simp [insert_secops_message, hs', hb] at h
    | ok p => exact build_ok_length hb

theorem scan_queryActiveThread_mem {env : ScanEnv}
    (h : ScanEvent.QueryActiveThread ∈ (insert_secops_message env).2) :
    env.is_singleton = true ∧
      env.buffer_text.length ≤ SECOPS_HARD_LIMIT_BYTES ∧
      env.delegate_available = true := by
  by_cases hs : env.is_singleton = false
  · simp [insert_secops_message, hs] at h
  · have hs' : env.is_singleton = true := by
      cases hsv : env.is_singleton
      · exact absurd hsv hs
      · rfl
    cases hb : build_secops_payload env.buffer_text with
    | error err =>
      cases err with
      | TooLarge bytes => simp [insert_secops_message, hs', hb] at h
    | ok p =>
      by_cases hd : env.delegate_available = false
      · simp [insert_secops_message, hs', hb, hd] at h
      · have hd' : env.delegate_available = true := by
          cases hdv : env.delegate_available
          · exact absurd hdv hd
          · rfl
        exact ⟨hs', build_ok_length hb, hd'⟩

/-- Claim C5: when the buffer is not a single file-backed text buffer,
`insert_secops_message` fails with `UnsupportedBuffer` and performs no
collaborator interaction at all — no snapshot, no payload construction,
no query of the agent delegate or panel.  Moreover, on every run the
payload is built only after the buffer check passed, the capability is
queried only after payload construction succeeded, and threads are
queried only after the capability check passed (check order 1-2-3-4). -/
theorem secops_unsupported_buffer_short_circuit (env : ScanEnv)
    (h : env.is_singleton = false) :
    (insert_secops_message env).1 =
      Except.error SecOpsScanError.UnsupportedBuffer ∧
    (insert_secops_message env).2 = [] ∧
    (∀ env2 : ScanEnv,
      ScanEvent.BuildPayload ∈ (insert_secops_message env2).2 →
      env2.is_singleton = true) ∧
    (∀ env2 : ScanEnv,
      ScanEvent.QueryCapability ∈ (insert_secops_message env2).2 →
      env2.is_singleton = true ∧
        env2.buffer_text.length ≤ SECOPS_HARD_LIMIT_BYTES) ∧
    (∀ env2 : ScanEnv,
      ScanEvent.QueryActiveThread ∈ (insert_secops_message env2).2 →
      env2.is_singleton = true ∧
        env2.buffer_text.length ≤ SECOPS_HARD_LIMIT_BYTES ∧
        env2.delegate_available = true) :=
  ⟨by simp [insert_secops_message, h], by simp [insert_secops_message, h],
   fun _ hm => scan_buildPayload_mem hm,
   fun _ hm => scan_queryCapability_mem hm,
   fun _ hm => scan_queryActiveThread_mem hm⟩

/-- A multi-buffer (non-singleton) scan environment. -/
def envMultiBuffer : ScanEnv :=
  { is_singleton := false
    buffer_text := []
    delegate_available := true
    panel_present := true
    active_thread_before := true
    active_thread_after := true
    message_buffer_empty := true }

/-- Witness for C5 at a concrete multi-buffer environment. -/
theorem secops_unsupported_buffer_short_circuit_witness :
    (insert_secops_message envMultiBuffer).1 =
      Except.error SecOpsScanError.UnsupportedBuffer ∧
    (insert_secops_message envMultiBuffer).2 = [] :=
  ⟨(secops_unsupported_buffer_short_circuit envMultiBuffer rfl).1,
   (secops_unsupported_buffer_short_circuit envMultiBuffer rfl).2.1⟩

/-- An eligible single-file scan environment where the panel exists but no
thread is active, before or after the creation attempt. -/
def envPanelFocusNoThread : ScanEnv :=
  { is_singleton := true
    buffer_text := []
    delegate_available := true
    panel_present := true
    active_thread_before := false
    active_thread_after := false
    message_buffer_empty := true }

/-- Counterexample to C6 as stated: this run fails with `NoAgentThread`,
yet the panel was brought to the foreground — the `focus_panel` of lines
126-128 runs before thread acquisition, so a failing run can still focus
the destination panel. -/
theorem secops_focus_despite_failure :
    (insert_secops_message envPanelFocusNoThread).1 =
      Except.error SecOpsScanError.NoAgentThread ∧
    ScanEvent.FocusPanel ∈ (insert_secops_message envPanelFocusNoThread).2 := by
  refine ⟨?_, ?_⟩ <;> decide

/-- Claim C6 (amended): the final focus/surface step of line 154 is
reached only on success, and no failing run other than `NoAgentThread`
ever focuses the panel; but the early focus of lines 126-128 runs after
the capability check and before thread acquisition, so a run failing with
`NoAgentThread` has focused the panel exactly when the panel was present. -/
theorem secops_focus_only_after_checks (env : ScanEnv) :
    ((∃ p, (insert_secops_message env).1 = Except.ok p) →
      ScanEvent.FocusPanel ∈ (insert_secops_message env).2) ∧
    (∀ e, (insert_secops_message env).1 = Except.error e →
      (ScanEvent.FocusPanel ∈ (insert_secops_message env).2 ↔
        e = SecOpsScanError.NoAgentThread ∧ env.panel_present = true)) := by
  by_cases hs : env.is_singleton = false
  · refine ⟨?_, ?_⟩
    · rintro ⟨p, hp⟩
      simp [insert_secops_message, hs] at hp
    · intro e he
      simp only [insert_secops_message, hs] at he ⊢
      simp at he
      subst he
      simp
  · have hs' : env.is_singleton = true := by
      cases hsv : env.is_singleton
      · exact absurd hsv hs
      · rfl
    cases hb : build_secops_payload env.buffer_text with
    | error err =>
      cases err with
      | TooLarge bytes =>
        refine ⟨?_, ?_⟩
        · rintro ⟨p, hp⟩
          simp [insert_secops_message, hs', hb] at hp
        · intro e he
          simp [insert_secops_message, hs', hb] at he ⊢
          subst he
          simp
    | ok p =>
      by_cases hd : env.delegate_available = false
      · refine ⟨?_, ?_⟩
        · rintro ⟨q, hq⟩
          simp [insert_secops_message, hs', hb, hd] at hq
        · intro e he
          simp [insert_secops_message, hs', hb, hd] at he ⊢
          subst he
          simp
      · have hd' : env.delegate_available = true := by
          cases hdv : env.delegate_available
          · exact absurd hdv hd
          · rfl
        by_cases ha : env.active_thread_after = false
        · refine ⟨?_, ?_⟩
          · rintro ⟨q, hq⟩
            simp [insert_secops_message, hs', hb, hd', ha] at hq
          · intro e he
            have he' : SecOpsScanError.NoAgentThread = e := by
              simpa [insert_secops_message, hs', hb, hd', ha] using he
            subst he'
            by_cases hp : env.panel_present = true
            · simp [insert_secops_message, hs', hb, hd', ha, hp]
            · have hp' : env.panel_present = false := by
                cases hpv : env.panel_present
                · rfl
                · exact absurd hpv hp
              simp [insert_secops_message, hs', hb, hd', ha, hp']
        · have ha' : env.active_thread_after = true := by
            cases hav : env.active_thread_after
            · exact absurd hav ha
            · rfl
          refine ⟨?_, ?_⟩
          · intro _
            simp [insert_secops_message, hs', hb, hd', ha']
          · intro e he
            simp [insert_secops_message, hs', hb, hd', ha'] at he

/-- Witness for C6: at `envPanelFocusNoThread` the run fails with
`NoAgentThread` and the focus/failure equivalence holds. -/
theorem secops_focus_only_after_checks_witness :
    ScanEvent.FocusPanel ∈ (insert_secops_message envPanelFocusNoThread).2 ↔
      (SecOpsScanError.NoAgentThread = SecOpsScanError.NoAgentThread ∧
        envPanelFocusNoThread.panel_present = true) :=
  (secops_focus_only_after_checks envPanelFocusNoThread).2
    SecOpsScanError.NoAgentThread (by decide)

/-- Claim C7 (amended): in an eligible scan with the capability available
and no active thread, the thread query runs exactly twice (the initial
query and the single re-query); the creation attempt runs exactly once
when the agent panel is present in the workspace, and — contrary to the
claim as stated — zero times when it is absent, since the creation of
lines 134-136 is guarded by panel presence; if the re-query still finds no
thread, the run fails with `NoAgentThread`. -/
theorem secops_thread_creation_once (env : ScanEnv)
    (hs : env.is_singleton = true)
    (hlen : env.buffer_text.length ≤ SECOPS_HARD_LIMIT_BYTES)
    (hd : env.delegate_available = true)
    (hbefore : env.active_thread_before = false) :
    List.count ScanEvent.CreateThread (insert_secops_message env).2 =
      (if env.panel_present = true then 1 else 0) ∧
    List.count ScanEvent.QueryActiveThread (insert_secops_message env).2 = 2 ∧
    (env.active_thread_after = false →
      (insert_secops_message env).1 =
        Except.error SecOpsScanError.NoAgentThread) := by
  obtain ⟨p, hbp⟩ := build_isOk_of_le hlen
  by_cases hp : env.panel_present = true
  · by_cases ha : env.active_thread_after = false
    · refine ⟨?_, ?_, fun _ => ?_⟩ <;>
        simp [insert_secops_message, hs, hbp, hd, hbefore, hp, ha,
          List.count_cons, List.count_nil, List.count_append]
    · have ha' : env.active_thread_after = true := by
        cases hav : env.active_thread_after
        · exact absurd hav ha
        · rfl
      by_cases hm : env.message_buffer_empty = true
      · refine ⟨?_, ?_, fun ha2 => absurd ha2 (by simp [ha'])⟩ <;>
          simp [insert_secops_message, hs, hbp, hd, hbefore, hp, ha', hm,
            List.count_cons, List.count_nil, List.count_append]
      · have hm' : env.message_buffer_empty = false := by
          cases hmv : env.message_buffer_empty
          · rfl
          · exact absurd hmv hm
        refine ⟨?_, ?_, fun ha2 => absurd ha2 (by simp [ha'])⟩ <;>
          simp [insert_secops_message, hs, hbp, hd, hbefore, hp, ha', hm',
            List.count_cons, List.count_nil, List.count_append]
  · have hp' : env.panel_present = false := by
      cases hpv : env.panel_present
      · rfl
      · exact absurd hpv hp
    by_cases ha : env.active_thread_after = false
    · refine ⟨?_, ?_, fun _ => ?_⟩ <;>
        simp [insert_secops_message, hs, hbp, hd, hbefore, hp', ha,
          List.count_cons, List.count_nil, List.count_append]
    · have ha' : env.active_thread_after = true := by
        cases hav : env.active_thread_after
        · exact absurd hav ha
        · rfl
      by_cases hm : env.message_buffer_empty = true
      · refine ⟨?_, ?_, fun ha2 => absurd ha2 (by simp [ha'])⟩ <;>
          simp [insert_secops_message, hs, hbp, hd, hbefore, hp', ha', hm,
            List.count_cons, List.count_nil, List.count_append]
      · have hm' : env.message_buffer_empty = false := by
          cases hmv : env.message_buffer_empty
          · rfl
          · exact absurd hmv hm
        refine ⟨?_, ?_, fun ha2 => absurd ha2 (by simp [ha'])⟩ <;>
          simp [insert_secops_message, hs, hbp, hd, hbefore, hp', ha', hm',
            List.count_cons, List.count_nil, List.count_append]

/-- An eligible scan environment with the capability available, the panel
present, and no active thread before or after creation. -/
def envPanelNoThread : ScanEnv :=
  { is_singleton := true
    buffer_text := []
    delegate_available := true
    panel_present := true
    active_thread_before := false
    active_thread_after := false
    message_buffer_empty := true }

/-- Witness for C7 at `envPanelNoThread`. -/
theorem secops_thread_creation_once_witness :
    List.count ScanEvent.CreateThread
        (insert_secops_message envPanelNoThread).2 =
      (if envPanelNoThread.panel_present = true then 1 else 0) ∧
    List.count ScanEvent.QueryActiveThread
        (insert_secops_message envPanelNoThread).2 = 2 ∧
    (envPanelNoThread.active_thread_after = false →
      (insert_secops_message envPanelNoThread).1 =
        Except.error SecOpsScanError.NoAgentThread) :=
  secops_thread_creation_once envPanelNoThread rfl (by decide) rfl rfl

/-- An eligible scan environment with the capability available but the
agent panel absent from the workspace, and no active thread. -/
def envDelegateNoPanel : ScanEnv :=
  { is_singleton := true
    buffer_text := []
    delegate_available := true
    panel_present := false
    active_thread_before := false
    active_thread_after := false
    message_buffer_empty := true }

/-- Counterexample to C7 as stated: with the capability available and no
active thread, but no `AgentPanel` in the workspace, the creation attempt
runs zero times — not exactly once — because lines 134-136 only create a
thread when `workspace.panel::<AgentPanel>` returns `Some`. -/
theorem secops_thread_creation_skipped_without_panel :
    envDelegateNoPanel.delegate_available = true ∧
    envDelegateNoPanel.active_thread_before = false ∧
    (insert_secops_message envDelegateNoPanel).1 =
      Except.error SecOpsScanError.NoAgentThread ∧
    List.count ScanEvent.CreateThread
      (insert_secops_message envDelegateNoPanel).2 = 0 := by
  refine ⟨rfl, rfl, ?_, ?_⟩ <;> decide
